import Mathlib

/-!
Shallow embedding of the DropikFood falling-item game (package `food_drop`):
the item model (items.py), the board with its gravity step (board.py), the
score/level managers and item factory (managers.py), the aggregate game
state (game_state.py) and the tick engine (game.py).  Python dicts are
modelled as insertion-ordered association lists, Python ints as `Int`,
Python floats (the score multiplier and drop chances) as `ℚ`, and a raised
`GameOver` as an `Option GOReason` result component.
-/

namespace FoodDrop

/-- items.py: the four concrete item kinds (`FoodItem`, `BonusFoodItem`,
`ForbiddenItem`, `PowerUpItem`) as a tagged union.  Each carries the fields
its mixins hold: position, symbol, `points` (ScorableMixin), `damage`
(DangerousMixin), `duration`/`timer` (TimedMixin), `name` (NamedMixin),
`effectType`, and the CollectibleMixin flag. -/
inductive Item where
  | food (x y : Int) (symbol : String) (points : Int) (name : String) (isCollected : Bool)
  | bonus (x y : Int) (symbol : String) (points : Int) (name : String) (isCollected : Bool)
  | forbidden (x y : Int) (symbol : String) (damage : Int) (name : String) (isCollected : Bool)
  | powerup (x y : Int) (symbol : String) (points duration timer : Int)
      (name effectType : String) (isCollected : Bool)
  deriving DecidableEq, Repr

namespace Item

/-- Entity.x. -/
def x : Item → Int
  | .food x _ _ _ _ _ => x
  | .bonus x _ _ _ _ _ => x
  | .forbidden x _ _ _ _ _ => x
  | .powerup x _ _ _ _ _ _ _ _ => x

/-- Entity.y. -/
def y : Item → Int
  | .food _ y _ _ _ _ => y
  | .bonus _ y _ _ _ _ => y
  | .forbidden _ y _ _ _ _ => y
  | .powerup _ y _ _ _ _ _ _ _ => y

/-- Entity.symbol. -/
def symbol : Item → String
  | .food _ _ s _ _ _ => s
  | .bonus _ _ s _ _ _ => s
  | .forbidden _ _ s _ _ _ => s
  | .powerup _ _ s _ _ _ _ _ _ => s

/-- Python `getattr(entity, "points", 0)`: Food, BonusFood and PowerUp carry
a `points` attribute (ScorableMixin); ForbiddenItem does not, so the default
0 is returned for it. -/
def getattrPoints : Item → Int
  | .food _ _ _ p _ _ => p
  | .bonus _ _ _ p _ _ => p
  | .forbidden _ _ _ _ _ _ => 0
  | .powerup _ _ _ p _ _ _ _ _ => p

/-- DangerousMixin.damage, for the one kind that has it. -/
def damageAttr : Item → Option Int
  | .forbidden _ _ _ d _ _ => some d
  | _ => none

/-- isinstance(item, ForbiddenItem). -/
def isForbidden : Item → Bool
  | .forbidden _ _ _ _ _ _ => true
  | _ => false

/-- isinstance(item, FoodItem): true for FoodItem and its subclass
BonusFoodItem (game.py checks `isinstance(item, FoodItem) or
isinstance(item, BonusFoodItem)`). -/
def isFoodOrBonus : Item → Bool
  | .food _ _ _ _ _ _ => true
  | .bonus _ _ _ _ _ _ => true
  | _ => false

/-- isinstance(item, PowerUpItem). -/
def isPowerup : Item → Bool
  | .powerup _ _ _ _ _ _ _ _ _ => true
  | _ => false

/-- TimedMixin.tick does `self._timer -= 1` (no clamp) on a power-up;
other kinds are never ticked but are mapped to themselves. -/
def tickDown : Item → Item
  | .powerup x y s p d t n e c => .powerup x y s p d (t - 1) n e c
  | it => it

/-- TimedMixin timer value; 0 for the untimed kinds. -/
def timerValue : Item → Int
  | .powerup _ _ _ _ _ t _ _ _ => t
  | _ => 0

/-- board.py line 107: `type(entity)(x, new_y, entity.symbol,
getattr(entity, "points", 0))`.  The fourth positional constructor argument
is `points` for Food/BonusFood/PowerUp but `damage` for ForbiddenItem, and
every other constructor argument takes its default (name "", PowerUp
duration 10 and effect "speed", collected flag false). -/
def advanceCopy (x y : Int) : Item → Item
  | .food _ _ s p _ _ => .food x y s p "" false
  | .bonus _ _ s p _ _ => .bonus x y s p "" false
  | .forbidden _ _ s _ _ _ => .forbidden x y s 0 "" false
  | .powerup _ _ s p _ _ _ _ _ => .powerup x y s p 10 10 "" "speed" false

end Item

section PyDict

variable {κ α : Type} [DecidableEq κ]

/-- Python dict lookup `d[k]` / `d.get(k)` on an insertion-ordered
association list. -/
def dictLookup (d : List (κ × α)) (k : κ) : Option α :=
  (d.find? (fun kv => decide (kv.1 = k))).map Prod.snd

/-- Python dict assignment `d[k] = v`: replaces the value in place when the
key exists, appends a new entry otherwise. -/
def dictInsert (d : List (κ × α)) (k : κ) (v : α) : List (κ × α) :=
  if d.any (fun kv => decide (kv.1 = k)) then
    d.map (fun kv => if kv.1 = k then (k, v) else kv)
  else d ++ [(k, v)]

/-- Python `d.pop(k, None)`. -/
def dictPop (d : List (κ × α)) (k : κ) : List (κ × α) :=
  d.filter (fun kv => decide (kv.1 ≠ k))

end PyDict

/-- board.py `Board`: grid of symbols (render cache, modelled as a total
function on coordinates), the position-indexed item mapping, and the
forbidden-symbol set.  The player is held by the `Game` record. -/
structure Board where
  width : Int
  height : Int
  emptySymbol : String
  grid : Int × Int → String
  forbidden : List String
  items : List ((Int × Int) × Item)

/-- Board.__init__. -/
def mkBoard (width height : Int) : Board :=
  { width := width, height := height, emptySymbol := ".",
    grid := fun _ => ".", forbidden := [], items := [] }

namespace Board

/-- Board._place: writes the symbol into the grid and indexes the entity. -/
def place (b : Board) (e : Item) : Board :=
  { b with grid := fun p => if p = (e.x, e.y) then e.symbol else b.grid p,
           items := dictInsert b.items (e.x, e.y) e }

/-- Board.clear_cell. -/
def clearCell (b : Board) (x y : Int) : Board :=
  { b with grid := fun p => if p = (x, y) then b.emptySymbol else b.grid p,
           items := dictPop b.items (x, y) }

/-- The loop of Board.drop_items over the snapshot `list(self.items.items())`:
clears each old cell, collects entities whose advanced row reaches the
height into `missed`, and accumulates the advanced copies of the others in
`new_positions`. -/
def dropLoop (height : Int) :
    List ((Int × Int) × Item) → Board → List Item → List ((Int × Int) × Item) →
    Board × List Item × List ((Int × Int) × Item)
  | [], b, missed, np => (b, missed, np)
  | ((x, y), e) :: rest, b, missed, np =>
      let b' := b.clearCell x y
      if height ≤ y + 1 then
        dropLoop height rest b' (missed ++ [e]) np
      else
        dropLoop height rest b' missed (dictInsert np (x, y + 1) (e.advanceCopy x (y + 1)))

/-- Board.drop_items: advance every tracked item one row, then merge in the
newly spawned items, then place everything in `new_positions`; returns the
updated board and the list of items that fell off. -/
def dropItems (b : Board) (newItems : List Item) : Board × List Item :=
  let r := dropLoop b.height b.items b [] []
  let np := newItems.foldl (fun d e => dictInsert d (e.x, e.y) e) r.2.2
  let b2 := np.foldl (fun bb (kv : (Int × Int) × Item) => bb.place kv.2) r.1
  (b2, r.2.1)

end Board

/-- The items of a board's mapping whose advanced row y+1 reaches the
height: the ones drop_items reports as missed. -/
def missedOf (height : Int) (l : List ((Int × Int) × Item)) : List Item :=
  l.filterMap (fun kv => if height ≤ kv.1.2 + 1 then some kv.2 else none)

/-- The advanced copies, keyed at the advanced position, of the items whose
advanced row stays on the board. -/
def advancedOf (height : Int) (l : List ((Int × Int) × Item)) :
    List ((Int × Int) × Item) :=
  l.filterMap (fun kv =>
    if height ≤ kv.1.2 + 1 then none
    else some ((kv.1.1, kv.1.2 + 1), kv.2.advanceCopy kv.1.1 (kv.1.2 + 1)))

/-- entities.py `Player`: position, symbol, name, and the score/lives pair
behind validating setters. -/
structure Player where
  x : Int
  y : Int
  symbol : String
  name : String
  score : Int
  lives : Int

/-- The Player.lives setter: `self._lives = max(0, value)`. -/
def Player.setLives (p : Player) (v : Int) : Player :=
  { p with lives := max 0 v }

/-- game_state.py `GameState`. -/
structure GameState where
  score : Int
  lives : Int
  level : Int
  tickCount : Int
  missedCount : Int
  collectedItems : List String
  activePowerups : List (String × Item)

/-- GameState() with its dataclass defaults. -/
def mkGameState : GameState :=
  { score := 0, lives := 3, level := 1, tickCount := 0, missedCount := 0,
    collectedItems := [], activePowerups := [] }

/-- The dictionary GameState.to_dict builds / from_dict reads.  from_dict
reads each key with `data.get(key, default)`, so the fields are optional;
`active_powerups` is written by to_dict but never read back. -/
structure StateDict where
  score : Option Int
  lives : Option Int
  level : Option Int
  tickCount : Option Int
  missedCount : Option Int
  collectedItems : Option (List String)
  activePowerups : List String

/-- GameState.to_dict. -/
def GameState.toDict (s : GameState) : StateDict :=
  { score := some s.score, lives := some s.lives, level := some s.level,
    tickCount := some s.tickCount, missedCount := some s.missedCount,
    collectedItems := some s.collectedItems,
    activePowerups := s.activePowerups.map Prod.fst }

/-- GameState.from_dict, mutating the receiver `s`: every listed field is
overwritten from the dictionary (with the documented default when the key
is absent); `active_powerups` is left untouched. -/
def GameState.fromDict (s : GameState) (d : StateDict) : GameState :=
  { s with score := d.score.getD 0, lives := d.lives.getD 3,
           level := d.level.getD 1, tickCount := d.tickCount.getD 0,
           missedCount := d.missedCount.getD 0,
           collectedItems := d.collectedItems.getD [] }

/-- GameState.update_from_player. -/
def GameState.updateFromPlayer (s : GameState) (p : Player) : GameState :=
  { s with score := p.score, lives := p.lives }

/-- Python `int(q)`: truncation toward zero. -/
def pyTrunc (q : ℚ) : Int :=
  if 0 ≤ q then ⌊q⌋ else ⌈q⌉

/-- TrackableMixin.increment_stat. -/
def incrementStat (d : List (String × Int)) (key : String) (amount : Int) :
    List (String × Int) :=
  dictInsert d key ((dictLookup d key).getD 0 + amount)

/-- managers.py `ScoreManager`: total, multiplier (a Python float, embedded
as ℚ), combo counter and the TrackableMixin stats dict.  Observer callbacks
are modelled where they are attached (see `Game.captureItems` and
`observerAttach`). -/
structure ScoreManager where
  totalScore : Int
  multiplier : ℚ
  comboCount : Int
  stats : List (String × Int)

/-- ScoreManager(). -/
def mkScoreManager : ScoreManager :=
  { totalScore := 0, multiplier := 1, comboCount := 0, stats := [] }

/-- ScoreManager.add_points: effective points are
`int(points * self._multiplier)`, added to the total; the per-type and
aggregate stats are incremented; the combo grows on a positive effective
value and resets to 0 otherwise. -/
def ScoreManager.addPoints (sm : ScoreManager) (points : Int) (itemType : String) :
    ScoreManager :=
  let eff := pyTrunc ((points : ℚ) * sm.multiplier)
  { sm with totalScore := sm.totalScore + eff,
            stats := incrementStat
              (incrementStat sm.stats (itemType ++ "_collected") 1) "total_points" eff,
            comboCount := if 0 < eff then sm.comboCount + 1 else 0 }

/-- ScoreManager.set_multiplier: `max(1.0, multiplier)`. -/
def ScoreManager.setMultiplier (sm : ScoreManager) (m : ℚ) : ScoreManager :=
  { sm with multiplier := max 1 m }

/-- One call into a ScoreManager session: add_points or set_multiplier. -/
inductive ScoreOp where
  | add (points : Int) (itemType : String)
  | setMult (m : ℚ)
  deriving Repr

/-- Dispatch one ScoreOp. -/
def ScoreManager.applyOp (sm : ScoreManager) : ScoreOp → ScoreManager
  | .add p t => sm.addPoints p t
  | .setMult m => sm.setMultiplier m

/-- A whole interleaved call sequence. -/
def ScoreManager.applyOps (sm : ScoreManager) (ops : List ScoreOp) : ScoreManager :=
  ops.foldl ScoreManager.applyOp sm

/-- The op has a non-negative points argument (set_multiplier calls are
unconstrained). -/
def ScoreOp.nonnegB : ScoreOp → Bool
  | .add p _ => decide (0 ≤ p)
  | .setMult _ => true

/-- One level-catalog entry as storage.load_levels_config builds it; each
field is read back with `.get(key, default)`, hence optional here. -/
structure LevelEntry where
  itemsRequired : Option Int
  dropChance : Option ℚ
  description : String

/-- managers.py `LevelManager`: current level, the stored threshold for it,
the per-level collected counter, the level catalog keyed by the level
number's decimal string, and the `base_drop_chance` entry of the
ConfigurableMixin config (absent until load_config supplies it). -/
structure LevelManager where
  currentLevel : Int
  itemsThreshold : Int
  itemsCollectedForLevel : Int
  levelsConfig : List (String × LevelEntry)
  baseDropChance : Option ℚ

/-- LevelManager(): note the stored threshold starts at 0 and is only
recomputed by load_config or a level-up. -/
def mkLevelManager : LevelManager :=
  { currentLevel := 1, itemsThreshold := 0, itemsCollectedForLevel := 0,
    levelsConfig := [], baseDropChance := none }

/-- The items_required threshold resolved for level `n`:
`self._levels_config.get(str(n), {}).get("items_required", 5 + (n - 1) * 2)`. -/
def thresholdFor (cfg : List (String × LevelEntry)) (n : Int) : Int :=
  ((dictLookup cfg (toString n)).bind (fun e => e.itemsRequired)).getD (5 + (n - 1) * 2)

/-- LevelManager._update_threshold_for_current_level. -/
def LevelManager.updateThreshold (lm : LevelManager) : LevelManager :=
  { lm with itemsThreshold := thresholdFor lm.levelsConfig lm.currentLevel,
            itemsCollectedForLevel := 0 }

/-- Python `range(1, current_level)`. -/
def prevLevels (currentLevel : Int) : List Int :=
  (List.range (currentLevel - 1).toNat).map (fun i => (i : Int) + 1)

/-- LevelManager._get_total_items_for_previous_levels. -/
def LevelManager.prevLevelsSum (lm : LevelManager) : Int :=
  ((prevLevels lm.currentLevel).map (thresholdFor lm.levelsConfig)).sum

/-- LevelManager.check_level_up_by_items: subtract the prior levels' summed
thresholds from the lifetime total; at or past the stored threshold the
level advances by one and the threshold/counter are recomputed. -/
def LevelManager.checkLevelUpByItems (lm : LevelManager) (totalItemsCollected : Int) :
    LevelManager × Bool :=
  if lm.itemsThreshold ≤ totalItemsCollected - lm.prevLevelsSum then
    ({ lm with currentLevel := lm.currentLevel + 1 }.updateThreshold, true)
  else (lm, false)

/-- LevelManager.get_drop_chance. -/
def LevelManager.getDropChance (lm : LevelManager) : ℚ :=
  let levelEntry := dictLookup lm.levelsConfig (toString lm.currentLevel)
  let base := lm.baseDropChance.getD (3 / 10)
  let levelChance := (levelEntry.bind (fun e => e.dropChance)).getD base
  min (levelChance + (lm.currentLevel - 1) * (1 / 20)) (9 / 10)

/-- Python `value or default` for an optional string argument: None and the
empty string both fall back. -/
def pyOr (v : Option String) (d : String) : String :=
  match v with
  | none => d
  | some s => if s = "" then d else s

/-- FactoryMixin.create against the registry ItemFactory.__init__ fills
(food, forbidden, powerup, bonus), called with positional arguments
`(x, y, symbol, n)`: the fourth argument is the points of a Food, BonusFood
or PowerUp but the damage of a ForbiddenItem; the remaining constructor
parameters take their defaults.  An unregistered key raises ValueError. -/
def factoryCreate (key : String) (x y : Int) (symbol : String) (n : Int) :
    Except String Item :=
  if key = "food" then .ok (.food x y symbol n "" false)
  else if key = "forbidden" then .ok (.forbidden x y symbol n "" false)
  else if key = "powerup" then .ok (.powerup x y symbol n 10 10 "" "speed" false)
  else if key = "bonus" then .ok (.bonus x y symbol n "" false)
  else .error ("Unknown item type: " ++ key)

/-- The `not self._config` branch of ItemFactory.create_random_item
(managers.py lines 78-81): `item_type = item_type or "food"`,
`symbol = symbol or "?"`, then `self.create(item_type, x, y, symbol, 1)`.
The catalog branch of the method is not needed by the claims. -/
def createRandomItemNoCfg (x y : Int) (itemType symbol : Option String) :
    Except String Item :=
  factoryCreate (pyOr itemType "food") x y (pyOr symbol "?") 1

/-- game.py `DropConfig` (the fields the engine reads; the config paths are
replaced by the `hasFactory` flag on the Game). -/
structure DropConfig where
  width : Int
  height : Int
  lives : Int
  allowedItems : List (String × Int)
  forbiddenItems : List String
  dropRate : Int
  dropChance : ℚ

/-- The reasons the engine raises GameOver. -/
inductive GOReason where
  | caughtForbidden
  | missedThree
  | outOfLives
  deriving DecidableEq, Repr

/-- game.py `Game`: configuration, board, aggregate state, the two managers
and the player.  `hasFactory` records whether an item catalog was loaded
(`self.item_factory is not None`).  The observer wiring of __init__
(_on_score_changed appending to collected_items, _on_level_up mirroring the
level) is inlined where the managers notify, in `captureItems`. -/
structure Game where
  config : DropConfig
  board : Board
  gameState : GameState
  scoreManager : ScoreManager
  levelManager : LevelManager
  hasFactory : Bool
  player : Player

/-- Game.__init__ for a configuration without catalog paths: player at
(width // 2, height - 1) with the configured lives (through the clamping
setter), managers fresh, forbidden symbols copied onto the board. -/
def mkGame (config : DropConfig) : Game :=
  { config := config,
    board := { mkBoard config.width config.height with forbidden := config.forbiddenItems },
    gameState := mkGameState,
    scoreManager := mkScoreManager,
    levelManager := mkLevelManager,
    hasFactory := false,
    player := Player.setLives
      { x := Int.fdiv config.width 2, y := config.height - 1, symbol := "U",
        name := "Гравець", score := 0, lives := 3 } config.lives }

namespace Game

/-- Board.move_player through Game._apply_move: clamp the new x into
[0, width). -/
def movePlayer (g : Game) (dx : Int) : Game :=
  { g with player :=
      { g.player with x := min (max (g.player.x + dx) 0) (g.board.width - 1) } }

/-- Game._apply_move: "L" and "R" move, anything else is ignored. -/
def applyMove (g : Game) (move : String) : Game :=
  if move = "L" then g.movePlayer (-1)
  else if move = "R" then g.movePlayer 1
  else g

/-- Game._update_powerups: tick every active power-up down; the expired
ones are removed, and an expired "multiplier" key resets the score
multiplier to 1.0. -/
def updatePowerups (g : Game) : Game :=
  let ticked := g.gameState.activePowerups.map (fun kp => (kp.1, kp.2.tickDown))
  let expired := (ticked.filter (fun kp => decide (kp.2.timerValue ≤ 0))).map Prod.fst
  let sm := expired.foldl
    (fun sm k => if k = "multiplier" then sm.setMultiplier 1 else sm) g.scoreManager
  { g with scoreManager := sm,
           gameState := { g.gameState with
             activePowerups := ticked.filter (fun kp => decide (0 < kp.2.timerValue)) } }

/-- The tail Game._capture_items runs after collecting a Food, BonusFood or
PowerUp item: add one point in the given category (the score_changed
observer appends the category to collected_items), mirror the score onto
the player and the game state, clear the cell, recount the lifetime "food"
collections, run the level-up check (the level_up observer mirrors the new
level), and with no item factory mirror the drop chance back into the
config. -/
def captureScore (g : Game) (pos : Int × Int) (category : String) : Game :=
  let sm := g.scoreManager.addPoints 1 category
  let gs := { g.gameState with collectedItems := g.gameState.collectedItems ++ [category] }
  let p := { g.player with score := sm.totalScore }
  let gs := gs.updateFromPlayer p
  let b := g.board.clearCell pos.1 pos.2
  let itemsCollected := (gs.collectedItems.filter (fun s => decide (s = "food"))).length
  let lmRes := g.levelManager.checkLevelUpByItems itemsCollected
  let gs := if lmRes.2 then { gs with level := lmRes.1.currentLevel } else gs
  let g' := { g with scoreManager := sm, gameState := gs, player := p, board := b,
                     levelManager := lmRes.1 }
  if g'.hasFactory then g'
  else { g' with config := { g'.config with dropChance := lmRes.1.getDropChance } }

/-- Game._capture_items: resolve the player's cell against the item
mapping.  Empty: early return (the level check is skipped too).  Forbidden:
lives forced to 0, cell cleared, GameOver raised.  Food/BonusFood/PowerUp:
collected and scored through `captureScore`. -/
def captureItems (g : Game) : Game × Option GOReason :=
  let pos := (g.player.x, g.player.y)
  match dictLookup g.board.items pos with
  | none => (g, none)
  | some it =>
    if it.isForbidden then
      ({ g with player := g.player.setLives 0,
                board := g.board.clearCell pos.1 pos.2 },
       some GOReason.caughtForbidden)
    else if it.isFoodOrBonus then (g.captureScore pos "food", none)
    else if it.isPowerup then (g.captureScore pos "powerup", none)
    else (g, none)

/-- Game._handle_collisions: every missed Food or BonusFood increments the
missed counter; missed Forbidden (and PowerUp) items are skipped. -/
def handleCollisions (g : Game) (missed : List Item) : Game :=
  { g with gameState := { g.gameState with
      missedCount := g.gameState.missedCount +
        (missed.filter Item.isFoodOrBonus).length } }

/-- The tail of Game._tick after the capture step: when capture raised, the
exception propagates (collisions and the tick counter are skipped);
otherwise handle the missed items, count the tick, and run the terminal
checks in order — missed-counter first, lives second. -/
def tickAfterCapture (cap : Game × Option GOReason) (missed : List Item) :
    Game × Option GOReason :=
  match cap with
  | (g, some r) => (g, some r)
  | (g, none) =>
    let g := g.handleCollisions missed
    let g := { g with gameState := { g.gameState with
                 tickCount := g.gameState.tickCount + 1 } }
    if 3 ≤ g.gameState.missedCount then (g, some GOReason.missedThree)
    else if g.player.lives ≤ 0 then (g, some GOReason.outOfLives)
    else (g, none)

/-- Game._tick: move (a falsy move string is skipped), power-up expiry,
gravity step, capture, collisions, tick counter, terminal checks. -/
def tick (g : Game) (newItems : List Item) (move : String) : Game × Option GOReason :=
  let g1 := if move = "" then g else g.applyMove move
  let g2 := g1.updatePowerups
  let dropped := g2.board.dropItems newItems
  let g3 := { g2 with board := dropped.1 }
  tickAfterCapture g3.captureItems dropped.2

/-- The loop of Game.run: one move (empty when the sequence is exhausted)
and one spawn batch per tick, stopping by propagating the first GameOver.
`spawner t` stands for `next(stream)` on tick index `t`. -/
def runLoop (spawner : Nat → List Item) (moves : List String) :
    Game → Nat → Nat → Game × Option GOReason
  | g, _, 0 => (g, none)
  | g, t, k + 1 =>
    match g.tick (spawner t) (moves.getD t "") with
    | (g', some r) => (g', some r)
    | (g', none) => runLoop spawner moves g' (t + 1) k

end Game

/-- The §8 scenario configuration: width 3, height 3, one life, a single
forbidden symbol, drop rate 1 and drop chance 1.0. -/
def scenarioConfig : DropConfig :=
  { width := 3, height := 3, lives := 1, allowedItems := [],
    forbiddenItems := ["F"], dropRate := 1, dropChance := 1 }

/-- The scenario spawn stream: chance 1.0 always fires, and every spawned
item is the forbidden item placed at the player's x (the player starts at
3 // 2 = 1 and never moves under empty moves), at y = 0 with the default
damage 999. -/
def scenarioSpawner : Nat → List Item :=
  fun _ => [Item.forbidden 1 0 "F" 999 "" false]

/-- `Game(config).run(moves=[""], max_ticks=maxTicks)` under the scenario
stream. -/
def scenarioRun (maxTicks : Nat) : Game × Option GOReason :=
  Game.runLoop scenarioSpawner [""] (mkGame scenarioConfig) 0 maxTicks

/-- ObservableMixin.attach_observer: a duplicate attach (Python `in`, by
callback equality) is ignored; observers are identified by α here. -/
def observerAttach {α : Type} [DecidableEq α] (observers : List α) (o : α) : List α :=
  if o ∈ observers then observers else observers ++ [o]

/-- The observer list built by a sequence of attach calls on a fresh
manager (ScoreManager and LevelManager both start with `[]`). -/
def observersAfter {α : Type} [DecidableEq α] (attaches : List α) : List α :=
  attaches.foldl observerAttach []

/-- ObservableMixin.notify_observers: one synchronous invocation per entry
of the observer list, in order; the result lists the callbacks invoked. -/
def notifyInvocations {α : Type} (observers : List α) : List α :=
  observers

/-- C9: For every GameState, applying from_dict to the dictionary produced
by to_dict yields a state equal to the original in its score, lives, level,
tick count, missed count, and collected-items list (the active power-up set
is not required to round-trip). -/
theorem roundTrip_c9 : ∀ (s t : GameState),
    (t.fromDict s.toDict).score = s.score
    ∧ (t.fromDict s.toDict).lives = s.lives
    ∧ (t.fromDict s.toDict).level = s.level
    ∧ (t.fromDict s.toDict).tickCount = s.tickCount
    ∧ (t.fromDict s.toDict).missedCount = s.missedCount
    ∧ (t.fromDict s.toDict).collectedItems = s.collectedItems := by
  intro s t
  exact ⟨rfl, rfl, rfl, rfl, rfl, rfl⟩

/-- C3: For every tick and every list of items falling off the bottom of
the board, _handle_collisions increases the missed counter by exactly the
number of Food and BonusFood items in that list; a Forbidden item in the
list contributes nothing to the counter, and lives are never changed. -/
theorem handleCollisions_c3 : ∀ (g : Game) (missed : List Item),
    (g.handleCollisions missed).gameState.missedCount
        = g.gameState.missedCount + (missed.filter Item.isFoodOrBonus).length
    ∧ (g.handleCollisions missed).player.lives = g.player.lives
    ∧ (∀ x y s d n c rest,
        ((Item.forbidden x y s d n c :: rest).filter Item.isFoodOrBonus).length
          = (rest.filter Item.isFoodOrBonus).length) := by
  intro g missed
  refine ⟨rfl, rfl, ?_⟩
  intro x y s d n c rest
  simp [List.filter, Item.isFoodOrBonus]

/-- C7 counterexample: with no catalog loaded, requesting the type
"forbidden" with symbol "X" yields a ForbiddenItem with damage 1 and symbol
"X" — not a Food-like item with symbol "?" and 1 point — and requesting an
unregistered type raises instead of succeeding. -/
theorem createRandomItem_c7_cex :
    createRandomItemNoCfg 0 0 (some "forbidden") (some "X")
        = Except.ok (Item.forbidden 0 0 "X" 1 "" false)
    ∧ createRandomItemNoCfg 0 0 (some "forbidden") (some "X")
        ≠ Except.ok (Item.food 0 0 "?" 1 "" false)
    ∧ createRandomItemNoCfg 0 0 (some "weird") none
        = Except.error ("Unknown item type: " ++ "weird") := by
  refine ⟨rfl, ?_, rfl⟩
  simp [createRandomItemNoCfg, pyOr, factoryCreate]

/-- C7 as amended: with no catalog loaded, create_random_item falls back to
type "food" and symbol "?" only when the respective argument is
unspecified (None or empty); otherwise it constructs the requested
registered kind at (x, y) with 1 as the fourth constructor argument
(points 1 for food/bonus/powerup, damage 1 for forbidden), and an
unregistered non-empty type raises "Unknown item type". -/
theorem createRandomItem_c7_amended : ∀ (x y : Int) (s : String),
    createRandomItemNoCfg x y none none = Except.ok (Item.food x y "?" 1 "" false)
    ∧ (s ≠ "" → createRandomItemNoCfg x y (some "food") (some s)
        = Except.ok (Item.food x y s 1 "" false))
    ∧ (s ≠ "" → createRandomItemNoCfg x y (some "forbidden") (some s)
        = Except.ok (Item.forbidden x y s 1 "" false))
    ∧ createRandomItemNoCfg x y (some "powerup") none
        = Except.ok (Item.powerup x y "?" 1 10 10 "" "speed" false)
    ∧ createRandomItemNoCfg x y (some "bonus") none
        = Except.ok (Item.bonus x y "?" 1 "" false)
    ∧ (∀ t : String, t ≠ "" → t ≠ "food" → t ≠ "forbidden" → t ≠ "powerup" → t ≠ "bonus" →
        createRandomItemNoCfg x y (some t) none
          = Except.error ("Unknown item type: " ++ t)) := by
  intro x y s
  refine ⟨rfl, ?_, ?_, rfl, rfl, ?_⟩
  · intro hs
    simp [createRandomItemNoCfg, pyOr, factoryCreate, hs]
  · intro hs
    simp [createRandomItemNoCfg, pyOr, factoryCreate, hs]
  · intro t h0 h1 h2 h3 h4
    simp [createRandomItemNoCfg, pyOr, factoryCreate, h0, h1, h2, h3, h4]

/-- C8 counterexample: under the §8 scenario (width 3, height 3, one life,
spawn chance 1.0, the forbidden item always spawned at the player's x),
`run(moves=[""], maxTicks=1)` does NOT raise GameOver: the item spawned at
row 0 is still two rows above the player, and the run completes with the
player's lives unchanged at 1. -/
theorem scenarioRun_c8_cex :
    (scenarioRun 1).2 = none ∧ (scenarioRun 1).1.player.lives = 1 := by
  exact ⟨rfl, rfl⟩

/-- C8 as amended: under the same scenario the item reaches the player's
row two gravity steps later, so `run(moves=[""], maxTicks=3)` raises
GameOver (forbidden item caught) with the player's lives equal to 0, while
two ticks are still not enough. -/
theorem scenarioRun_c8_amended :
    (scenarioRun 2).2 = none
    ∧ (scenarioRun 3).2 = some GOReason.caughtForbidden
    ∧ (scenarioRun 3).1.player.lives = 0 := by
  exact ⟨rfl, rfl, rfl⟩

/-- C6: a single check_level_up_by_items call advances the level by exactly
one when the items collected within the current level (the lifetime total
minus the summed catalog-or-default thresholds of levels 1..current−1)
reach the stored current threshold, and leaves it unchanged otherwise — so
one call never advances more than one level however large the total; on
advancement the threshold is recomputed (with default 5 + (N−1)×2 when
level N has no catalog entry) and the per-level counter resets to 0. -/
theorem checkLevelUp_c6 : ∀ (lm : LevelManager) (total : Int),
    ((lm.checkLevelUpByItems total).1.currentLevel
        = if lm.itemsThreshold ≤ total - lm.prevLevelsSum
          then lm.currentLevel + 1 else lm.currentLevel)
    ∧ ((lm.checkLevelUpByItems total).2 = true
        ↔ lm.itemsThreshold ≤ total - lm.prevLevelsSum)
    ∧ ((lm.checkLevelUpByItems total).2 = true →
        (lm.checkLevelUpByItems total).1.itemsThreshold
            = thresholdFor lm.levelsConfig (lm.currentLevel + 1)
        ∧ (lm.checkLevelUpByItems total).1.itemsCollectedForLevel = 0)
    ∧ (∀ n : Int, dictLookup lm.levelsConfig (toString n) = none →
        thresholdFor lm.levelsConfig n = 5 + (n - 1) * 2) := by
  intro lm total
  by_cases h : lm.itemsThreshold ≤ total - lm.prevLevelsSum
  · refine ⟨?_, ?_, ?_, ?_⟩
    · simp [LevelManager.checkLevelUpByItems, h, LevelManager.updateThreshold]
    · simp [LevelManager.checkLevelUpByItems, h]
    · intro _
      exact ⟨by simp [LevelManager.checkLevelUpByItems, h, LevelManager.updateThreshold],
             by simp [LevelManager.checkLevelUpByItems, h, LevelManager.updateThreshold]⟩
    · intro n hn
      simp [thresholdFor, hn]
  · refine ⟨?_, ?_, ?_, ?_⟩
    · simp [LevelManager.checkLevelUpByItems, h]
    · simp [LevelManager.checkLevelUpByItems, h]
    · intro hb
      exact absurd hb (by simp [LevelManager.checkLevelUpByItems, h])
    · intro n hn
      simp [thresholdFor, hn]

/-- Truncation toward zero of a non-negative rational is non-negative. -/
lemma pyTrunc_nonneg {q : ℚ} (h : 0 ≤ q) : 0 ≤ pyTrunc q := by
  simp only [pyTrunc, if_pos h]
  exact Int.floor_nonneg.mpr h

/-- add_points with a non-negative points argument and a multiplier ≥ 1
never decreases the total. -/
lemma addPoints_mono (sm : ScoreManager) (p : Int) (t : String)
    (hm : 1 ≤ sm.multiplier) (hp : 0 ≤ p) :
    sm.totalScore ≤ (sm.addPoints p t).totalScore := by
  have hq : (0 : ℚ) ≤ (p : ℚ) * sm.multiplier :=
    mul_nonneg (by exact_mod_cast hp) (le_trans zero_le_one hm)
  have := pyTrunc_nonneg hq
  simp only [ScoreManager.addPoints]
  omega

/-- Every ScoreManager operation preserves the multiplier-≥-1 invariant. -/
lemma applyOp_multiplier (sm : ScoreManager) (op : ScoreOp)
    (hm : 1 ≤ sm.multiplier) : 1 ≤ (sm.applyOp op).multiplier := by
  cases op with
  | add p t => exact hm
  | setMult m => exact le_max_left 1 m

/-- One operation with non-negative input never decreases the total. -/
lemma applyOp_mono (sm : ScoreManager) (op : ScoreOp)
    (hm : 1 ≤ sm.multiplier) (hop : op.nonnegB = true) :
    sm.totalScore ≤ (sm.applyOp op).totalScore := by
  cases op with
  | add p t =>
    exact addPoints_mono sm p t hm (by simpa [ScoreOp.nonnegB] using hop)
  | setMult m => exact le_refl _

/-- Folding a sequence of non-negative operations keeps the invariant and
never decreases the total. -/
lemma applyOps_mono (ops : List ScoreOp) : ∀ (sm : ScoreManager),
    1 ≤ sm.multiplier → (∀ o ∈ ops, o.nonnegB = true) →
    sm.totalScore ≤ (sm.applyOps ops).totalScore
    ∧ 1 ≤ (sm.applyOps ops).multiplier := by
  induction ops with
  | nil => exact fun sm hm _ => ⟨le_refl _, hm⟩
  | cons op rest ih =>
    intro sm hm hops
    have h1 := applyOp_mono sm op hm (hops op (List.mem_cons_self op rest))
    have h2 := applyOp_multiplier sm op hm
    have h3 := ih (sm.applyOp op) h2 (fun o ho => hops o (List.mem_cons_of_mem op ho))
    exact ⟨le_trans h1 h3.1, h3.2⟩

/-- C5: across any interleaved sequence of add_points and set_multiplier
calls in which every add_points receives a non-negative points argument,
the total is monotonic non-decreasing: it never drops over the whole
sequence, the multiplier-≥-1 invariant (which a fresh manager satisfies)
is maintained throughout, and the next non-negative add after any such
sequence again does not decrease the total. -/
theorem scoreMonotone_c5 (sm : ScoreManager) (ops : List ScoreOp) (op : ScoreOp)
    (hm : 1 ≤ sm.multiplier) (hops : ∀ o ∈ ops, o.nonnegB = true)
    (hop : op.nonnegB = true) :
    sm.totalScore ≤ (sm.applyOps ops).totalScore
    ∧ 1 ≤ (sm.applyOps ops).multiplier
    ∧ (sm.applyOps ops).totalScore ≤ ((sm.applyOps ops).applyOp op).totalScore
    ∧ 1 ≤ mkScoreManager.multiplier := by
  have h := applyOps_mono ops sm hm hops
  exact ⟨h.1, h.2, applyOp_mono _ op h.2 hop, le_refl 1⟩

/-- C5 witness: the fresh manager, the sequence
[add 2 "food", set_multiplier 5/2, add 3 "food", set_multiplier 1/2] and a
further add 1 "powerup". -/
theorem scoreMonotone_c5_witness :
    mkScoreManager.totalScore ≤
        (mkScoreManager.applyOps [ScoreOp.add 2 "food", ScoreOp.setMult (5 / 2),
          ScoreOp.add 3 "food", ScoreOp.setMult (1 / 2)]).totalScore
    ∧ 1 ≤ (mkScoreManager.applyOps [ScoreOp.add 2 "food", ScoreOp.setMult (5 / 2),
          ScoreOp.add 3 "food", ScoreOp.setMult (1 / 2)]).multiplier
    ∧ (mkScoreManager.applyOps [ScoreOp.add 2 "food", ScoreOp.setMult (5 / 2),
          ScoreOp.add 3 "food", ScoreOp.setMult (1 / 2)]).totalScore ≤
        ((mkScoreManager.applyOps [ScoreOp.add 2 "food", ScoreOp.setMult (5 / 2),
          ScoreOp.add 3 "food", ScoreOp.setMult (1 / 2)]).applyOp
            (ScoreOp.add 1 "powerup")).totalScore
    ∧ 1 ≤ mkScoreManager.multiplier :=
  scoreMonotone_c5 mkScoreManager
    [ScoreOp.add 2 "food", ScoreOp.setMult (5 / 2), ScoreOp.add 3 "food",
      ScoreOp.setMult (1 / 2)]
    (ScoreOp.add 1 "powerup") (by decide) (by decide) (by decide)

/-- attach_observer preserves the no-duplicates property of the observer
list. -/
lemma observerAttach_nodup {α : Type} [DecidableEq α] {l : List α} (o : α)
    (h : l.Nodup) : (observerAttach l o).Nodup := by
  unfold observerAttach
  by_cases ho : o ∈ l
  · simp only [ho, if_true]
    exact h
  · simp only [ho, if_false]
    exact h.append (List.nodup_singleton o)
      (fun a ha hb => by simp at hb; exact ho (hb ▸ ha))

/-- Membership after one attach. -/
lemma observerAttach_mem {α : Type} [DecidableEq α] {l : List α} {o a : α} :
    a ∈ observerAttach l o ↔ a ∈ l ∨ a = o := by
  unfold observerAttach
  by_cases ho : o ∈ l
  · simp only [ho, if_true]
    constructor
    · exact Or.inl
    · rintro (ha | rfl)
      · exact ha
      · exact ho
  · simp [ho]

/-- The observer list built from a fresh manager by any attach sequence has
no duplicates and contains every attached observer. -/
lemma observersAfter_spec {α : Type} [DecidableEq α] (attaches : List α) :
    ∀ acc : List α, acc.Nodup →
      (attaches.foldl observerAttach acc).Nodup
      ∧ ∀ a, a ∈ attaches ∨ a ∈ acc → a ∈ attaches.foldl observerAttach acc := by
  induction attaches with
  | nil =>
    intro acc h
    exact ⟨h, fun a ha => ha.resolve_left (List.not_mem_nil a)⟩
  | cons o rest ih =>
    intro acc h
    have step := ih (observerAttach acc o) (observerAttach_nodup o h)
    refine ⟨step.1, ?_⟩
    intro a ha
    rcases ha with ha | ha
    · rcases List.mem_cons.mp ha with rfl | ha
      · exact step.2 a (Or.inr (observerAttach_mem.mpr (Or.inr rfl)))
      · exact step.2 a (Or.inl ha)
    · exact step.2 a (Or.inr (observerAttach_mem.mpr (Or.inl ha)))

/-- C10: attaching the same observer callback more than once is idempotent
— after any attach sequence, re-attaching an already-attached observer
leaves the list unchanged — and a notification invokes each distinct
attached observer exactly once. -/
theorem observers_c10 {α : Type} [DecidableEq α] (attaches : List α) (o : α)
    (h : o ∈ attaches) :
    observerAttach (observersAfter attaches) o = observersAfter attaches
    ∧ (notifyInvocations (observersAfter attaches)).count o = 1 := by
  have hs := observersAfter_spec attaches [] List.nodup_nil
  have hmem : o ∈ observersAfter attaches := hs.2 o (Or.inl h)
  constructor
  · simp [observerAttach, hmem]
  · exact List.count_eq_one_of_mem hs.1 hmem

/-- C10 witness: the attach sequence [7, 7, 3] keeps one copy of observer 7
and notifies it exactly once. -/
theorem observers_c10_witness :
    observerAttach (observersAfter [7, 7, 3]) 7 = observersAfter [7, 7, 3]
    ∧ (notifyInvocations (observersAfter ([7, 7, 3] : List Nat))).count 7 = 1 :=
  observers_c10 [7, 7, 3] 7 (by decide)

/-- Popping a key removes it from the dict entirely. -/
lemma dictLookup_pop_self {κ α : Type} [DecidableEq κ] (d : List (κ × α)) (k : κ) :
    dictLookup (dictPop d k) k = none := by
  induction d with
  | nil => rfl
  | cons kv rest ih =>
    by_cases hk : kv.1 = k
    · have hstep : dictPop (kv :: rest) k = dictPop rest k := by
        simp [dictPop, List.filter, hk]
      rw [hstep]
      exact ih
    · have hstep : dictPop (kv :: rest) k = kv :: dictPop rest k := by
        simp [dictPop, List.filter, hk]
      rw [hstep]
      simpa [dictLookup, List.find?, hk] using ih

/-- C1: whenever the item at the player's cell is a Forbidden item, the
capture step of a tick sets the player's lives to 0 (whatever they were
before), clears that cell in the item mapping and the grid, and raises
GameOver. -/
theorem captureForbidden_c1 (g : Game) (it : Item)
    (h1 : dictLookup g.board.items (g.player.x, g.player.y) = some it)
    (h2 : it.isForbidden = true) :
    (g.captureItems).1.player.lives = 0
    ∧ dictLookup (g.captureItems).1.board.items (g.player.x, g.player.y) = none
    ∧ (g.captureItems).1.board.grid (g.player.x, g.player.y) = g.board.emptySymbol
    ∧ (g.captureItems).2 = some GOReason.caughtForbidden := by
  simp only [Game.captureItems, h1, h2, if_true]
  refine ⟨?_, ?_, ?_, trivial⟩
  · simp [Player.setLives]
  · exact dictLookup_pop_self g.board.items (g.player.x, g.player.y)
  · simp [Board.clearCell]

/-- A concrete game for the C1 witness: the scenario board with a Forbidden
item already at the player's cell (1, 2) and the player holding 5 lives. -/
def c1WitnessGame : Game :=
  { mkGame scenarioConfig with
    player := { (mkGame scenarioConfig).player with lives := 5 },
    board := (mkGame scenarioConfig).board.place (Item.forbidden 1 2 "F" 999 "" false) }

/-- C1 witness: capturing the forbidden item zeroes the 5 lives, clears the
cell and raises GameOver. -/
theorem captureForbidden_c1_witness :
    (c1WitnessGame.captureItems).1.player.lives = 0
    ∧ dictLookup (c1WitnessGame.captureItems).1.board.items
        (c1WitnessGame.player.x, c1WitnessGame.player.y) = none
    ∧ (c1WitnessGame.captureItems).1.board.grid
        (c1WitnessGame.player.x, c1WitnessGame.player.y)
        = c1WitnessGame.board.emptySymbol
    ∧ (c1WitnessGame.captureItems).2 = some GOReason.caughtForbidden :=
  captureForbidden_c1 c1WitnessGame (Item.forbidden 1 2 "F" 999 "" false)
    (by decide) rfl

/-- The capture step raises GameOver only for a forbidden item: its result
reason is none or caughtForbidden. -/
lemma captureItems_reason (g : Game) :
    (g.captureItems).2 = none ∨ (g.captureItems).2 = some GOReason.caughtForbidden := by
  cases h : dictLookup g.board.items (g.player.x, g.player.y) with
  | none => simp [Game.captureItems, h]
  | some it =>
    simp only [Game.captureItems, h]
    split_ifs <;> simp

/-- The post-capture tail of a tick: characterisation of the terminal
checks given that capture raises only the forbidden reason. -/
lemma tickAfterCapture_char (cap : Game × Option GOReason) (missed : List Item)
    (hcap : cap.2 = none ∨ cap.2 = some GOReason.caughtForbidden) :
    ((Game.tickAfterCapture cap missed).2 = some GOReason.missedThree →
        3 ≤ (Game.tickAfterCapture cap missed).1.gameState.missedCount)
    ∧ ((Game.tickAfterCapture cap missed).2 ≠ some GOReason.caughtForbidden →
        ((Game.tickAfterCapture cap missed).2 = some GOReason.missedThree
          ↔ 3 ≤ (Game.tickAfterCapture cap missed).1.gameState.missedCount))
    ∧ ((Game.tickAfterCapture cap missed).2 ≠ some GOReason.caughtForbidden →
        3 ≤ (Game.tickAfterCapture cap missed).1.gameState.missedCount →
        (Game.tickAfterCapture cap missed).1.player.lives ≤ 0 →
        (Game.tickAfterCapture cap missed).2 = some GOReason.missedThree) := by
  obtain ⟨g4, r⟩ := cap
  rcases hcap with hr | hr
  · simp only at hr
    subst hr
    simp only [Game.tickAfterCapture]
    by_cases h3 : 3 ≤ ((g4.handleCollisions missed)).gameState.missedCount
    · simp [h3]
    · by_cases hl : (g4.handleCollisions missed).player.lives ≤ 0
      · simp [h3, hl]
      · simp [h3, hl]
  · simp only at hr
    subst hr
    simp [Game.tickAfterCapture]

/-- C4: on every tick, GameOver for missed items is only raised when the
tick ends with the missed counter at 3 or more; when the tick does not end
in a forbidden capture, the missed GameOver is raised exactly when the
counter has reached 3 (so it fires on the first tick the counter gets
there and never before); and the missed-count terminal check precedes the
lives check — when both conditions hold, the raised reason is the missed
one. -/
theorem tickMissed_c4 : ∀ (g : Game) (newItems : List Item) (move : String),
    ((g.tick newItems move).2 = some GOReason.missedThree →
        3 ≤ (g.tick newItems move).1.gameState.missedCount)
    ∧ ((g.tick newItems move).2 ≠ some GOReason.caughtForbidden →
        ((g.tick newItems move).2 = some GOReason.missedThree
          ↔ 3 ≤ (g.tick newItems move).1.gameState.missedCount))
    ∧ ((g.tick newItems move).2 ≠ some GOReason.caughtForbidden →
        3 ≤ (g.tick newItems move).1.gameState.missedCount →
        (g.tick newItems move).1.player.lives ≤ 0 →
        (g.tick newItems move).2 = some GOReason.missedThree) := by
  intro g newItems move
  exact tickAfterCapture_char _ _ (captureItems_reason _)

/-- The missed accumulator of the drop loop collects exactly the entities
whose advanced row reaches the height, in order. -/
lemma dropLoop_missed (h : Int) :
    ∀ (l : List ((Int × Int) × Item)) (b : Board) (m : List Item)
      (np : List ((Int × Int) × Item)),
      (Board.dropLoop h l b m np).2.1 = m ++ missedOf h l := by
  intro l
  induction l with
  | nil =>
    intro b m np
    simp [Board.dropLoop, missedOf]
  | cons kv rest ih =>
    intro b m np
    obtain ⟨⟨x, y⟩, e⟩ := kv
    by_cases hy : h ≤ y + 1
    · simp only [Board.dropLoop, if_pos hy]
      rw [ih]
      simp [missedOf, hy]
    · simp only [Board.dropLoop, if_neg hy]
      rw [ih]
      simp [missedOf, hy]

/-- The board coming out of the drop loop has had every processed key
popped from its item mapping. -/
lemma dropLoop_items (h : Int) :
    ∀ (l : List ((Int × Int) × Item)) (b : Board) (m : List Item)
      (np : List ((Int × Int) × Item)),
      (Board.dropLoop h l b m np).1.items
        = l.foldl (fun d kv => dictPop d kv.1) b.items := by
  intro l
  induction l with
  | nil =>
    intro b m np
    simp [Board.dropLoop]
  | cons kv rest ih =>
    intro b m np
    obtain ⟨⟨x, y⟩, e⟩ := kv
    by_cases hy : h ≤ y + 1
    · simp only [Board.dropLoop, if_pos hy]
      exact ih (b.clearCell x y) (m ++ [e]) np
    · simp only [Board.dropLoop, if_neg hy]
      exact ih (b.clearCell x y) m _

/-- Popping the key of every entry of a covering key list empties a dict. -/
lemma foldPop_self {κ α : Type} [DecidableEq κ] :
    ∀ (l d : List (κ × α)), (∀ kv ∈ d, kv.1 ∈ l.map Prod.fst) →
      l.foldl (fun d kv => dictPop d kv.1) d = [] := by
  intro l
  induction l with
  | nil =>
    intro d hd
    cases d with
    | nil => rfl
    | cons kv rest => exact absurd (hd kv (List.mem_cons_self kv rest)) (by simp)
  | cons k ks ih =>
    intro d hd
    simp only [List.foldl_cons]
    apply ih
    intro kv hkv
    have hmem : kv ∈ d ∧ kv.1 ≠ k.1 := by
      have := List.mem_filter.mp hkv
      exact ⟨this.1, by simpa using this.2⟩
    have := hd kv hmem.1
    simp only [List.map_cons, List.mem_cons] at this
    exact this.resolve_left hmem.2

/-- Inserting a fresh key appends the entry. -/
lemma dictInsert_fresh {κ α : Type} [DecidableEq κ] (d : List (κ × α)) (k : κ)
    (v : α) (h : k ∉ d.map Prod.fst) : dictInsert d k v = d ++ [(k, v)] := by
  have hany : d.any (fun kv => decide (kv.1 = k)) = false := by
    simp only [List.any_eq_false, decide_eq_true_eq]
    intro kv hkv hk
    exact h (hk ▸ List.mem_map_of_mem Prod.fst hkv)
  simp [dictInsert, hany]

/-- Every key of the advanced-copies list is an original key shifted one
row down. -/
lemma mem_advancedOf_keys (h : Int) (l : List ((Int × Int) × Item))
    (k : Int × Int) (hk : k ∈ (advancedOf h l).map Prod.fst) :
    ∃ p ∈ l.map Prod.fst, k = (p.1, p.2 + 1) := by
  simp only [advancedOf, List.mem_map, List.mem_filterMap] at hk
  obtain ⟨kv, ⟨a, ha, heq⟩, hfst⟩ := hk
  by_cases hy : h ≤ a.1.2 + 1
  · rw [if_pos hy] at heq
    exact absurd heq (by simp)
  · rw [if_neg hy] at heq
    refine ⟨a.1, List.mem_map_of_mem Prod.fst ha, ?_⟩
    have := Option.some.inj heq
    rw [← hfst, ← this]

/-- With no duplicate original keys, the advanced-copies list has no
duplicate keys either. -/
lemma advancedOf_keys_nodup (h : Int) :
    ∀ (l : List ((Int × Int) × Item)), (l.map Prod.fst).Nodup →
      ((advancedOf h l).map Prod.fst).Nodup := by
  intro l
  induction l with
  | nil =>
    intro _
    simp [advancedOf]
  | cons kv rest ih =>
    intro hnd
    rw [List.map_cons, List.nodup_cons] at hnd
    by_cases hy : h ≤ kv.1.2 + 1
    · simpa [advancedOf, List.filterMap_cons, hy] using ih hnd.2
    · rw [show advancedOf h (kv :: rest)
            = ((kv.1.1, kv.1.2 + 1), kv.2.advanceCopy kv.1.1 (kv.1.2 + 1))
                :: advancedOf h rest from by
          simp [advancedOf, List.filterMap_cons, hy]]
      rw [List.map_cons, List.nodup_cons]
      refine ⟨?_, ih hnd.2⟩
      intro hmem
      obtain ⟨p, hp, hpe⟩ := mem_advancedOf_keys h rest _ hmem
      have hpe' : (kv.1.1, kv.1.2 + 1) = (p.1, p.2 + 1) := hpe
      rw [Prod.mk.injEq] at hpe'
      have hx : kv.1 = p := Prod.ext_iff.mpr ⟨hpe'.1, by omega⟩
      exact hnd.1 (hx ▸ hp)

/-- The new-positions accumulator of the drop loop collects exactly the
advanced copies, in order, when the original keys are duplicate-free and
do not collide with the accumulator. -/
lemma dropLoop_np (h : Int) :
    ∀ (l : List ((Int × Int) × Item)) (b : Board) (m : List Item)
      (np : List ((Int × Int) × Item)),
      (l.map Prod.fst).Nodup →
      (∀ kv ∈ l, ¬ h ≤ kv.1.2 + 1 → (kv.1.1, kv.1.2 + 1) ∉ np.map Prod.fst) →
      (Board.dropLoop h l b m np).2.2 = np ++ advancedOf h l := by
  intro l
  induction l with
  | nil =>
    intro b m np _ _
    simp [Board.dropLoop, advancedOf]
  | cons kv rest ih =>
    intro b m np hnd hfresh
    rw [List.map_cons, List.nodup_cons] at hnd
    obtain ⟨⟨x, y⟩, e⟩ := kv
    by_cases hy : h ≤ y + 1
    · simp only [Board.dropLoop, if_pos hy]
      rw [ih _ _ _ hnd.2 (fun kv' hkv' => hfresh kv' (List.mem_cons_of_mem _ hkv'))]
      simp [advancedOf, List.filterMap_cons, hy]
    · simp only [Board.dropLoop, if_neg hy]
      have hkey : ((x : Int), y + 1) ∉ np.map Prod.fst :=
        hfresh ((x, y), e) (List.mem_cons_self _ _) hy
      rw [ih _ _ _ hnd.2 ?fresh]
      case fresh =>
        intro kv' hkv' hy'
        rw [dictInsert_fresh np _ _ hkey, List.map_append, List.mem_append]
        rintro (hin | hin)
        · exact hfresh kv' (List.mem_cons_of_mem _ hkv') hy' hin
        · simp only [List.map_cons, List.map_nil, List.mem_cons,
            List.not_mem_nil, or_false] at hin
          have hin' : (kv'.1.1, kv'.1.2 + 1) = ((x : Int), y + 1) := hin
          rw [Prod.mk.injEq] at hin'
          have hx : kv'.1 = ((x : Int), y) := Prod.ext_iff.mpr ⟨hin'.1, by omega⟩
          have hnd1 : ((x : Int), y) ∉ List.map Prod.fst rest := hnd.1
          apply hnd1
          rw [← hx]
          exact List.mem_map_of_mem Prod.fst hkv'
      rw [dictInsert_fresh np _ _ hkey]
      simp [advancedOf, List.filterMap_cons, hy]

/-- The advanced copy sits at the position it is keyed by. -/
lemma advanceCopy_xy (x y : Int) (e : Item) :
    (e.advanceCopy x y).x = x ∧ (e.advanceCopy x y).y = y := by
  cases e <;> simp [Item.advanceCopy, Item.x, Item.y]

/-- Every entry of the advanced-copies list is keyed by its item's own
position. -/
lemma advancedOf_coherent (h : Int) (l : List ((Int × Int) × Item)) :
    ∀ kv ∈ advancedOf h l, kv.1 = (kv.2.x, kv.2.y) := by
  intro kv hkv
  simp only [advancedOf, List.mem_filterMap] at hkv
  obtain ⟨a, _, heq⟩ := hkv
  by_cases hy : h ≤ a.1.2 + 1
  · rw [if_pos hy] at heq
    exact absurd heq (by simp)
  · rw [if_neg hy] at heq
    have := Option.some.inj heq
    rw [← this]
    have hxy := advanceCopy_xy a.1.1 (a.1.2 + 1) a.2
    simp [hxy.1, hxy.2]

/-- Placing a coherent, duplicate-free, fresh entry list appends it to the
item mapping. -/
lemma foldPlace_items :
    ∀ (np : List ((Int × Int) × Item)) (b : Board),
      (∀ kv ∈ np, kv.1 = (kv.2.x, kv.2.y)) →
      ((np.map Prod.fst).Nodup) →
      (∀ kv ∈ np, kv.1 ∉ b.items.map Prod.fst) →
      (np.foldl (fun bb (kv : (Int × Int) × Item) => bb.place kv.2) b).items
        = b.items ++ np := by
  intro np
  induction np with
  | nil =>
    intro b _ _ _
    simp
  | cons kv rest ih =>
    intro b hco hnd hfresh
    rw [List.map_cons, List.nodup_cons] at hnd
    simp only [List.foldl_cons]
    have hkb : (kv.2.x, kv.2.y) = kv.1 := (hco kv (List.mem_cons_self _ _)).symm
    have hitems : (b.place kv.2).items = b.items ++ [kv] := by
      show dictInsert b.items (kv.2.x, kv.2.y) kv.2 = b.items ++ [kv]
      rw [hkb, dictInsert_fresh b.items kv.1 kv.2
        (hfresh kv (List.mem_cons_self _ _))]
    rw [ih (b.place kv.2)
      (fun kv' hkv' => hco kv' (List.mem_cons_of_mem _ hkv'))
      hnd.2 ?fresh, hitems, List.append_assoc]
    · rfl
    case fresh =>
      intro kv' hkv'
      rw [hitems, List.map_append, List.mem_append]
      rintro (hin | hin)
      · exact hfresh kv' (List.mem_cons_of_mem _ hkv') hin
      · simp only [List.map_cons, List.map_nil, List.mem_cons,
          List.not_mem_nil, or_false] at hin
        apply hnd.1
        rw [← hin]
        exact List.mem_map_of_mem Prod.fst hkv'

/-- C2 counterexample: a 3×2 board holding a Forbidden item of damage 999
at (0, 0).  drop_items re-places the advanced instance at (0, 1) with
damage 0 — the constructor received `getattr(entity, "points", 0)` — so the
damage payload is not carried forward unchanged. -/
def c2CexBoard : Board :=
  (mkBoard 3 2).place (Item.forbidden 0 0 "F" 999 "" false)

/-- C2 counterexample theorem: the tracked damage-999 forbidden item is
advanced to an instance whose damage is 0, not 999. -/
theorem dropItems_c2_cex :
    dictLookup c2CexBoard.items (0, 0) = some (Item.forbidden 0 0 "F" 999 "" false)
    ∧ (c2CexBoard.dropItems []).1.items
        = [((0, 1), Item.forbidden 0 1 "F" 0 "" false)]
    ∧ (Item.forbidden 0 1 "F" 0 "" false).damageAttr
        ≠ (Item.forbidden 0 0 "F" 999 "" false).damageAttr := by
  refine ⟨rfl, rfl, ?_⟩
  simp [Item.damageAttr]

/-- C2 as amended: drop_items returns exactly the tracked items whose
advanced row y+1 reaches the height (they are not re-placed), and, when the
key set is duplicate-free, re-places every other tracked item as a fresh
instance of the same kind keyed at (x, y+1).  The new instance carries the
symbol forward, and its fourth constructor argument is
`getattr(entity, "points", 0)`: Food, BonusFood and PowerUp keep their
points, but a Forbidden item's damage is reset to 0, and a PowerUp's
duration and effect are reset to the defaults 10 and "speed". -/
theorem dropItems_c2_amended (b : Board) (newItems : List Item)
    (hnd : (b.items.map Prod.fst).Nodup) :
    (b.dropItems newItems).2 = missedOf b.height b.items
    ∧ (b.dropItems []).1.items = advancedOf b.height b.items
    ∧ (∀ x y x0 y0 s p n c, Item.advanceCopy x y (Item.food x0 y0 s p n c)
        = Item.food x y s p "" false)
    ∧ (∀ x y x0 y0 s p n c, Item.advanceCopy x y (Item.bonus x0 y0 s p n c)
        = Item.bonus x y s p "" false)
    ∧ (∀ x y x0 y0 s d n c, Item.advanceCopy x y (Item.forbidden x0 y0 s d n c)
        = Item.forbidden x y s 0 "" false)
    ∧ (∀ x y x0 y0 s p d t n e c, Item.advanceCopy x y (Item.powerup x0 y0 s p d t n e c)
        = Item.powerup x y s p 10 10 "" "speed" false) := by
  have hmissed : (b.dropItems newItems).2
      = (Board.dropLoop b.height b.items b [] []).2.1 := rfl
  have hre : (Board.dropLoop b.height b.items b [] []).2.2
      = advancedOf b.height b.items := by
    have := dropLoop_np b.height b.items b [] [] hnd (fun kv _ _ => by simp)
    simpa using this
  have hempty : (Board.dropLoop b.height b.items b [] []).1.items = [] := by
    rw [dropLoop_items]
    exact foldPop_self b.items b.items
      (fun kv hkv => List.mem_map_of_mem Prod.fst hkv)
  refine ⟨?_, ?_, fun _ _ _ _ _ _ _ _ => rfl, fun _ _ _ _ _ _ _ _ => rfl,
    fun _ _ _ _ _ _ _ _ => rfl, fun _ _ _ _ _ _ _ _ _ _ _ => rfl⟩
  · rw [hmissed, dropLoop_missed]
    simp
  · have hstep : (b.dropItems []).1.items
        = (((Board.dropLoop b.height b.items b [] []).2.2).foldl
            (fun bb (kv : (Int × Int) × Item) => bb.place kv.2)
            (Board.dropLoop b.height b.items b [] []).1).items := rfl
    rw [hstep, hre,
      foldPlace_items (advancedOf b.height b.items)
        (Board.dropLoop b.height b.items b [] []).1
        (advancedOf_coherent b.height b.items)
        (advancedOf_keys_nodup b.height b.items hnd)
        (fun kv _ => by rw [hempty]; simp),
      hempty]
    rfl

/-- A board for the C2 witness: 3×3 with a Food item at (0, 0), which
survives the gravity step, and a BonusFood item at (1, 2), which falls off
the bottom. -/
def c2WitnessBoard : Board :=
  ((mkBoard 3 3).place (Item.food 0 0 "a" 2 "" false)).place
    (Item.bonus 1 2 "b" 4 "nm" false)

/-- C2 witness: the amended drop_items characterisation at the concrete
board taking one spawned item. -/
theorem dropItems_c2_amended_witness :
    (c2WitnessBoard.dropItems [Item.food 2 0 "c" 1 "" false]).2
        = missedOf c2WitnessBoard.height c2WitnessBoard.items
    ∧ (c2WitnessBoard.dropItems []).1.items
        = advancedOf c2WitnessBoard.height c2WitnessBoard.items
    ∧ (∀ x y x0 y0 s p n c, Item.advanceCopy x y (Item.food x0 y0 s p n c)
        = Item.food x y s p "" false)
    ∧ (∀ x y x0 y0 s p n c, Item.advanceCopy x y (Item.bonus x0 y0 s p n c)
        = Item.bonus x y s p "" false)
    ∧ (∀ x y x0 y0 s d n c, Item.advanceCopy x y (Item.forbidden x0 y0 s d n c)
        = Item.forbidden x y s 0 "" false)
    ∧ (∀ x y x0 y0 s p d t n e c, Item.advanceCopy x y (Item.powerup x0 y0 s p d t n e c)
        = Item.powerup x y s p 10 10 "" "speed" false) :=
  dropItems_c2_amended c2WitnessBoard [Item.food 2 0 "c" 1 "" false] (by decide)

end FoodDrop
